import Mathlib

/-!
Shallow embedding of the primary-document resolver of `src/server.js`
(functions `cleanCik`, `cleanAccession`, `secArchiveBase`, `isHtmlName`,
`FORM_FILENAME_PATTERNS`, `OWNERSHIP_FORM_MAP`, `directXslIfKnown`,
`getPrimaryFromSecIndex`, `getPrimaryFromWorker`, `resolvePrimaryUrl`).

Modelling conventions:
- JS strings are Lean `String`s; `toUpperCase`/`toLowerCase`/`trim` are
  modelled on the ASCII range (all data handled by the resolver is ASCII).
- Document sizes are modelled exactly as rationals (`Rat`); the JS code
  stores them in doubles, which agree with the rationals on every size the
  code can meet up to double precision.
- The network is modelled as an explicit environment (`Env`): an HTML page
  fetched from SEC is represented by the outcome of the cheerio extraction
  the code performs on it (the selected table's rows as lists of cell
  texts), since the HTML parser is an external library.  Every attempted
  fetch is recorded in a trace of `NetCall`s.
- JS `undefined` string fields are `Option String` (`none` = absent);
  JS truthiness of such a field is `jsTruthy` (absent and `""` are falsy).
-/

set_option linter.unusedVariables false

namespace SecBackend

/-- ASCII case mapping of one character, modelling JS toUpperCase. -/
def upperChar (c : Char) : Char := Char.toUpper c

/-- ASCII case mapping of one character, modelling JS toLowerCase. -/
def lowerChar (c : Char) : Char := Char.toLower c

/-- Embeds `String.prototype.toUpperCase` (ASCII range). -/
def strUpper (s : String) : String := ⟨s.data.map upperChar⟩

/-- Embeds `String.prototype.toLowerCase` (ASCII range). -/
def strLower (s : String) : String := ⟨s.data.map lowerChar⟩

/-- JS whitespace test (ASCII subset relevant to this data). -/
def jsWs (c : Char) : Bool := c == ' ' || c == '\t' || c == '\n' || c == '\r'

/-- Embeds `String.prototype.trim`. -/
def strTrim (s : String) : String :=
  ⟨((s.data.dropWhile jsWs).reverse.dropWhile jsWs).reverse⟩

/-- Boolean list prefix test (used to build the regex predicates). -/
def listIsPrefixOf : List Char → List Char → Bool
  | [], _ => true
  | _ :: _, [] => false
  | a :: as, b :: bs => a == b && listIsPrefixOf as bs

/-- Boolean substring test: does `needle` occur inside the second list. -/
def listHasSub (needle : List Char) : List Char → Bool
  | [] => needle.isEmpty
  | c :: t => listIsPrefixOf needle (c :: t) || listHasSub needle t

/-- Boolean suffix test on char lists. -/
def listEndsWith (l suffix : List Char) : Bool :=
  listIsPrefixOf suffix.reverse l.reverse

/-- Case-insensitive containment: embeds a `/literal/i` regex test. -/
def reC (pat : String) (s : String) : Bool :=
  listHasSub (strLower pat).data (strLower s).data

/-- Case-insensitive suffix: embeds a `/literal$/i` regex test. -/
def reEnd (pat : String) (s : String) : Bool :=
  listEndsWith (strLower s).data (strLower pat).data

/-- Alternation of two regex predicates (`/a|b/i`). -/
def reOr (p q : String → Bool) (s : String) : Bool := p s || q s

/-- Boolean string prefix test (used to state the folder-URL invariant). -/
def strStartsWith (p s : String) : Bool := listIsPrefixOf p.data s.data

/-- Embeds `isHtmlName`: `/\.html?$/i.test(name || "")`. -/
def isHtmlName (name : String) : Bool :=
  reEnd ".htm" name || reEnd ".html" name

/-- Embeds `cleanCik`: `String(cik).replace(/^0+/, "")` removes the leading
run of zeros. -/
def cleanCik (cik : String) : String :=
  ⟨cik.data.dropWhile (fun c => c == '0')⟩

/-- Embeds `cleanAccession`: a global regex replace that deletes every
dash character. -/
def cleanAccession (accession : String) : String :=
  ⟨accession.data.filter (fun c => !(c == '-'))⟩

/-- Embeds `secArchiveBase`. -/
def secArchiveBase (cik accession : String) : String :=
  "https://www.sec.gov/Archives/edgar/data/" ++ cleanCik cik ++ "/"
    ++ cleanAccession accession ++ "/"

/-- Embeds `OWNERSHIP_FORM_MAP` (a truthy lookup on an object with
non-empty string values). -/
def ownershipFormMap : String → Option String
  | "3" => some "xslF345X02/ownership.xml"
  | "3/A" => some "xslF345X02/ownership.xml"
  | "4" => some "xslF345X05/ownership.xml"
  | "4/A" => some "xslF345X05/ownership.xml"
  | "5" => some "xslF345X03/ownership.xml"
  | "5/A" => some "xslF345X03/ownership.xml"
  | _ => none

/-- Embeds `directXslIfKnown`. -/
def directXslIfKnown (formUpper : String) : Option String :=
  if formUpper == "144" then some "xsl144X01/primary_doc.xml"
  else if formUpper == "EFFECT" then some "xslEFFECTX01/primary_doc.xml"
  else if formUpper == "1-K" || formUpper == "1K" then
    some "xsl1-K_X01/primary_doc.xml"
  else if formUpper == "1-A" || formUpper == "1-A POS"
      || formUpper == "1-A/A" || formUpper == "1A" then
    some "xsl1-A_X01/primary_doc.xml"
  else if formUpper == "C" || formUpper == "C-AR" || formUpper == "C-TR"
      || formUpper == "C-U" || formUpper == "C/A" then
    some "xslC_X01/primary_doc.xml"
  else if formUpper == "D" then some "xslFormDX01/primary_doc.xml"
  else if formUpper == "QUALIF" then some "xslQUALIFX01/primary_doc.xml"
  else none

/-- Embeds `FORM_FILENAME_PATTERNS`: each regex literal becomes the
corresponding predicate (all are case-insensitive containment, suffix, or
alternation tests). -/
def formFilenamePatterns : String → List (String → Bool)
  | "1-A" => [reC "xsl1-A_X01/primary_doc.xml"]
  | "1-A POS" => [reC "xsl1-A_X01/primary_doc.xml"]
  | "1-A/A" => [reC "xsl1-A_X01/primary_doc.xml"]
  | "1-K" => [reC "xsl1-K_X01/primary_doc.xml"]
  | "1-SA" => [reC "cloud_1sa.htm", reC "cloudastructure_1sa.htm"]
  | "1-U" => [reC "cloudastructure_1u.htm", reC "cloud_1u.htm"]
  | "10-K" => [reC "cloudastructure_i10k", reC "10k"]
  | "10-Q" => [reC "cloudastructure_i10q", reC "10q"]
  | "144" => [reC "xsl144X01/primary_doc.xml"]
  | "253G2" => [reC "cloudastructure_253g2.htm", reC "cloud_253g2.htm"]
  | "3" => [reC "xslF345X02/ownership.xml"]
  | "4" => [reC "xslF345X05/ownership.xml"]
  | "424B3" => [reC "cloudastructure_424b3.htm", reC "424b3"]
  | "424B4" => [reC "cloudastructure_424b4.htm", reC "424b4"]
  | "8-A12B" => [reC "cloud_8a12b.htm"]
  | "8-K" => [reC "cloudastructure_8k.htm"]
  | "8-K/A" => [reC "cloudastructure_8ka.htm"]
  | "C" => [reC "xslC_X01/primary_doc.xml"]
  | "C-AR" => [reC "xslC_X01/primary_doc.xml"]
  | "C-TR" => [reC "xslC_X01/primary_doc.xml"]
  | "C-U" => [reC "xslC_X01/primary_doc.xml"]
  | "C/A" => [reC "xslC_X01/primary_doc.xml"]
  | "CERT" => [reEnd ".pdf"]
  | "SEC STAFF ACTION" => [reEnd ".pdf"]
  | "UPLOAD" => [reEnd ".pdf"]
  | "CORRESP" => [reC "filename1.htm"]
  | "DRS" => [reC "filename1.htm"]
  | "DRS/A" => [reC "filename1.htm"]
  | "DRSLTR" => [reC "filename1.htm"]
  | "EFFECT" => [reC "xslEFFECTX01/primary_doc.xml"]
  | "PRE 14A" => [reC "cloud_pre14a.htm"]
  | "QUALIF" => [reC "xslQUALIFX01/primary_doc.xml"]
  | "S-1" => [reC "cloudastructure_ex"]
  | "S-1/A" => [reC "cloudastructure_s1", reOr (reC "s-1a") (reC "s1a")]
  | "S-8" => [reC "cloudastructure_s8", reC "s-8"]
  | "DEF 14A" => [reC "cloud_def14a.htm"]
  | "DEFA14A" => [reC "cloud_defa14a.htm"]
  | "DEFR14A" => [reC "cloud_defr14a.htm"]
  | _ => []

/-- An index-table row as built by `getPrimaryFromSecIndex`'s cheerio loop:
`{ document, type, description, size }`. -/
structure Row where
  document : String
  type : String
  description : String
  size : Rat
deriving DecidableEq, Repr

/-- Character class of the size-stripping regex (keep digits and periods). -/
def numDot (c : Char) : Bool := c.isDigit || c == '.'

/-- Numeric value of a digit list. -/
def digitsVal (l : List Char) : Nat :=
  l.foldl (fun n c => n * 10 + (c.toNat - 48)) 0

/-- Embeds JS `parseFloat` on a string that contains only digits and
periods (the output of the stripping regex): longest numeric prefix, `none`
for NaN. -/
def jsParseFloat (l : List Char) : Option Rat :=
  let ip := l.takeWhile Char.isDigit
  match l.drop ip.length with
  | '.' :: r2 =>
    let fp := r2.takeWhile Char.isDigit
    if ip.isEmpty && fp.isEmpty then none
    else some ((digitsVal ip : Rat) + (digitsVal fp : Rat) / ((10 : Rat) ^ fp.length))
  | _ => if ip.isEmpty then none else some ((digitsVal ip : Rat))

/-- Embeds the row-extraction body of the `table.find("tr").each` loop:
`cells` are the `td` texts of one `tr` (absent cells and empty-text cells
coincide after `trim`, so both are the empty string here). -/
def parseRow (cells : List String) : Option Row :=
  if cells.length < 2 then none
  else if strTrim (cells.getD 0 "") == "" then none
  else some
    { document := strTrim (cells.getD 0 "")
      type := strUpper (strTrim (cells.getD 1 ""))
      description := strTrim (cells.getD 2 "")
      size :=
        if strTrim (cells.getD 3 "") == "" then 0
        else
          match jsParseFloat ((strTrim (cells.getD 3 "")).data.filter numDot) with
          | some q => q
          | none => 0 }

/-- Stable insertion of a row into a size-descending sorted list; a tie
keeps the inserted (originally earlier) row first. -/
def insertDesc (r : Row) : List Row → List Row
  | [] => [r]
  | x :: xs => if x.size ≤ r.size then r :: x :: xs else x :: insertDesc r xs

/-- Embeds `.sort((a, b) => (b.size || 0) - (a.size || 0))`: a stable
size-descending sort (ES2019 requires `Array.prototype.sort` to be stable,
so any stable sort on the same key is extensionally the code's sort). -/
def sortBySizeDesc : List Row → List Row
  | [] => []
  | r :: rs => insertDesc r (sortBySizeDesc rs)

/-- First row of a non-empty list attaining the maximal size. -/
def firstMax (r : Row) : List Row → Row
  | [] => r
  | x :: xs =>
    let m := firstMax x xs
    if r.size < m.size then m else r

/-- Embeds the pattern stage of `getPrimaryFromSecIndex`: for each pattern
in order, the first row whose `document` matches is taken. -/
def findPatternHit (rows : List Row) : List (String → Bool) → Option Row
  | [] => none
  | p :: ps =>
    match rows.find? (fun r => p r.document) with
    | some r => some r
    | none => findPatternHit rows ps

/-- Head of the stable size-descending sort of `l`, or `dflt` when `l` is
empty: this is `l.sort(bySizeDesc)[0]` guarded by `l.length`, as the code
writes it. -/
def pickBySort (dflt : Row) (l : List Row) : Row :=
  match sortBySizeDesc l with
  | best :: _ => best
  | [] => dflt

/-- Embeds the selection part of `getPrimaryFromSecIndex` (the code past
the `rows.length` check, which guarantees a non-empty list `r0 :: rest`),
returning the chosen row. -/
def chooseRow (r0 : Row) (rest : List Row) (formUpper : String) : Row :=
  match findPatternHit (r0 :: rest) (formFilenamePatterns formUpper) with
  | some hit => hit
  | none =>
    match (r0 :: rest).filter (fun r => r.type == formUpper) with
    | s0 :: stl => pickBySort s0 ((s0 :: stl).filter (fun r => isHtmlName r.document))
    | [] => pickBySort r0 ((r0 :: rest).filter (fun r => isHtmlName r.document))

/-- One file descriptor of the worker listing JSON: `{ filename, url, type }`
with possibly absent fields. -/
structure FileDesc where
  filename : Option String
  url : Option String
  type : Option String
deriving DecidableEq, Repr

/-- JS truthiness of a possibly absent string field. -/
def jsTruthy : Option String → Bool
  | some s => !(s == "")
  | none => false

/-- Filename test of the worker HTML stage: `/index|header|headers|idx/i`. -/
def indexLikeName (s : String) : Bool :=
  reC "index" s || reC "header" s || reC "headers" s || reC "idx" s

/-- HTML test of the worker stage: `f.type === "html" || isHtmlName(f.filename)`. -/
def isHtmlDesc (f : FileDesc) : Bool :=
  f.type == some "html" || isHtmlName (f.filename.getD "")

/-- Embeds the worker pattern loop: the first file matching a pattern is
returned when it has a truthy `url`; otherwise that pattern is skipped. -/
def workerPatLoop (files : List FileDesc) : List (String → Bool) → Option String
  | [] => none
  | p :: ps =>
    match files.find? (fun f => p (f.filename.getD "")) with
    | some hit => if jsTruthy hit.url then hit.url else workerPatLoop files ps
    | none => workerPatLoop files ps

/-- Embeds the selection part of `getPrimaryFromWorker` (past the
`files.length` check); the result is the returned JS value, where `none`
is `undefined`. -/
def workerSelect (f0 : FileDesc) (rest : List FileDesc) (formUpper : String) : Option String :=
  match workerPatLoop (f0 :: rest) (formFilenamePatterns formUpper) with
  | some u => some u
  | none =>
    match (f0 :: rest).filter isHtmlDesc with
    | h0 :: htl =>
      (((h0 :: htl).find? (fun f => !(indexLikeName (f.filename.getD "")))).getD h0).url
    | [] =>
      match (f0 :: rest).find? (fun f => f.type == some "pdf") with
      | some pdf => if jsTruthy pdf.url then pdf.url else f0.url
      | none => f0.url

/-- A fetched SEC index page, represented by the outcome of the cheerio
extraction the code performs on it: the selected table (`table.tableFile`
first, else the first table) as its rows of `td` texts, or no table. -/
inductive Page
  | noTable
  | table (cellRows : List (List String))
deriving DecidableEq, Repr

/-- A network call issued by the resolver. -/
inductive NetCall
  | indexHeaders
  | indexPlain
  | worker
deriving DecidableEq, Repr

/-- Upstream responses: what each of the three URLs the resolver can fetch
would answer (`none` = the fetch fails; for the worker, `none` also covers
a response that is not a JSON array). -/
structure Env where
  indexHeaders : Option Page
  indexPlain : Option Page
  worker : Option (List FileDesc)
deriving DecidableEq, Repr

/-- Embeds the index-candidates loop of `getPrimaryFromSecIndex`: try the
`-index-headers.html` URL, then the `-index.html` URL, recording each
attempted fetch. -/
def fetchIndex (env : Env) : Option Page × List NetCall :=
  match env.indexHeaders with
  | some p => (some p, [NetCall.indexHeaders])
  | none =>
    match env.indexPlain with
    | some p => (some p, [NetCall.indexHeaders, NetCall.indexPlain])
    | none => (none, [NetCall.indexHeaders, NetCall.indexPlain])

/-- Embeds the post-fetch part of `getPrimaryFromSecIndex`: parse the
fetched page's table rows and select; the errors mirror the three `throw`
sites of the function. -/
def indexResult (base : String) (pg : Option Page) (formUpper : String) :
    Except String String :=
  match pg with
  | none => Except.error "Could not fetch SEC index page"
  | some Page.noTable => Except.error "No table found in SEC index"
  | some (Page.table cellRows) =>
    match cellRows.filterMap parseRow with
    | [] => Except.error "No document rows found in SEC index"
    | q0 :: qrest => Except.ok (base ++ (chooseRow q0 qrest formUpper).document)

/-- Embeds `getPrimaryFromSecIndex`: fetch an index page (recording the
attempted fetches), then parse and select. -/
def getPrimaryFromSecIndex (env : Env) (cik accession formUpper : String) :
    Except String String × List NetCall :=
  (indexResult (secArchiveBase cik accession) (fetchIndex env).1 formUpper,
   (fetchIndex env).2)

/-- Embeds `getPrimaryFromWorker`: one fetch of the worker listing, then
the pure selection. -/
def getPrimaryFromWorker (env : Env) (formUpper : String) :
    Except String (Option String) × List NetCall :=
  match env.worker with
  | none => (Except.error "Worker listing failed", [NetCall.worker])
  | some [] => (Except.error "No files from worker", [NetCall.worker])
  | some (f0 :: rest) => (Except.ok (workerSelect f0 rest formUpper), [NetCall.worker])

/-- Embeds `resolvePrimaryUrl`: deterministic maps first (no fetch), then
the SEC index strategy, then — only if the index strategy threw — the
worker strategy, whose error is propagated. -/
def resolvePrimaryUrl (env : Env) (cik accession formRaw : String) :
    Except String (Option String) × List NetCall :=
  match ownershipFormMap (strUpper (strTrim formRaw)) with
  | some rel => (Except.ok (some (secArchiveBase cik accession ++ rel)), [])
  | none =>
    match directXslIfKnown (strUpper (strTrim formRaw)) with
    | some rel => (Except.ok (some (secArchiveBase cik accession ++ rel)), [])
    | none =>
      match getPrimaryFromSecIndex env cik accession (strUpper (strTrim formRaw)) with
      | (Except.ok u, calls) => (Except.ok (some u), calls)
      | (Except.error e, calls) =>
        match getPrimaryFromWorker env (strUpper (strTrim formRaw)) with
        | (r, calls2) => (r, calls ++ calls2)

/-- A row is the first row of `l` attaining the maximal size: it is a
member, no size exceeds its size, and every row strictly before its first
occurrence is strictly smaller. -/
def IsFirstMaxOf (l : List Row) (m : Row) : Prop :=
  m ∈ l ∧ (∀ x ∈ l, x.size ≤ m.size) ∧
    ∃ i : Nat, l[i]? = some m ∧
      ∀ j, j < i → ∀ x, l[j]? = some x → x.size < m.size

theorem firstMax_mem (rs : List Row) : ∀ r : Row, firstMax r rs ∈ r :: rs := by
  induction rs with
  | nil => intro r; simp [firstMax]
  | cons y ys ih =>
    intro r
    simp only [firstMax]
    by_cases h : r.size < (firstMax y ys).size
    · rw [if_pos h]; exact List.mem_cons_of_mem _ (ih y)
    · rw [if_neg h]; exact List.mem_cons_self r _

theorem firstMax_le (rs : List Row) :
    ∀ r : Row, ∀ x ∈ r :: rs, x.size ≤ (firstMax r rs).size := by
  induction rs with
  | nil =>
    intro r x hx
    rcases List.mem_singleton.mp hx with rfl
    simp [firstMax]
  | cons y ys ih =>
    intro r x hx
    simp only [firstMax]
    rcases List.mem_cons.mp hx with rfl | hx2
    · by_cases h : x.size < (firstMax y ys).size
      · rw [if_pos h]; exact le_of_lt h
      · rw [if_neg h]
    · have hle := ih y x hx2
      by_cases h : r.size < (firstMax y ys).size
      · rw [if_pos h]; exact hle
      · rw [if_neg h]; exact le_trans hle (not_lt.mp h)

theorem firstMax_firstOcc (rs : List Row) : ∀ r : Row, ∃ i : Nat,
    (r :: rs)[i]? = some (firstMax r rs) ∧
      ∀ j, j < i → ∀ x, (r :: rs)[j]? = some x → x.size < (firstMax r rs).size := by
  induction rs with
  | nil =>
    intro r
    refine ⟨0, by simp [firstMax], ?_⟩
    intro j hj
    exact absurd hj (Nat.not_lt_zero j)
  | cons y ys ih =>
    intro r
    obtain ⟨i, hi, hj⟩ := ih y
    simp only [firstMax]
    by_cases h : r.size < (firstMax y ys).size
    · rw [if_pos h]
      refine ⟨i + 1, by simpa using hi, ?_⟩
      intro j hjlt x hx
      cases j with
      | zero =>
        rw [List.getElem?_cons_zero] at hx
        cases hx
        exact h
      | succ k =>
        rw [List.getElem?_cons_succ] at hx
        exact hj k (Nat.lt_of_succ_lt_succ hjlt) x hx
    · rw [if_neg h]
      refine ⟨0, by simp, ?_⟩
      intro j hjlt
      exact absurd hjlt (Nat.not_lt_zero j)

theorem isFirstMaxOf_firstMax (r : Row) (rs : List Row) :
    IsFirstMaxOf (r :: rs) (firstMax r rs) :=
  ⟨firstMax_mem rs r, firstMax_le rs r, firstMax_firstOcc rs r⟩

/-- The stable size-descending sort puts the first maximal row at the head. -/
theorem sortBySizeDesc_cons (rs : List Row) : ∀ r : Row,
    ∃ tl, sortBySizeDesc (r :: rs) = firstMax r rs :: tl := by
  induction rs with
  | nil => intro r; exact ⟨[], rfl⟩
  | cons y ys ih =>
    intro r
    obtain ⟨tl, htl⟩ := ih y
    show ∃ tl2, insertDesc r (sortBySizeDesc (y :: ys)) = firstMax r (y :: ys) :: tl2
    rw [htl]
    by_cases h : (firstMax y ys).size ≤ r.size
    · refine ⟨firstMax y ys :: tl, ?_⟩
      simp only [insertDesc, if_pos h, firstMax]
      rw [if_neg (not_lt.mpr h)]
    · refine ⟨insertDesc r tl, ?_⟩
      simp only [insertDesc, if_neg h, firstMax]
      rw [if_pos (not_le.mp h)]

theorem pickBySort_nil (dflt : Row) : pickBySort dflt [] = dflt := rfl

/-- On a non-empty list the sort-and-take-head idiom picks the first row
of maximal size. -/
theorem pickBySort_cons (dflt x : Row) (xs : List Row) :
    pickBySort dflt (x :: xs) = firstMax x xs := by
  obtain ⟨tl, h⟩ := sortBySizeDesc_cons xs x
  unfold pickBySort
  rw [h]

theorem findPatternHit_mem (rows : List Row) (pats : List (String → Bool)) (r : Row)
    (h : findPatternHit rows pats = some r) : r ∈ rows := by
  induction pats with
  | nil => simp [findPatternHit] at h
  | cons p ps ih =>
    simp only [findPatternHit] at h
    cases hf : rows.find? (fun x => p x.document) with
    | some x => rw [hf] at h; cases h; exact List.mem_of_find?_eq_some hf
    | none => rw [hf] at h; exact ih h

/-- The index selection always yields one of the parsed rows. -/
theorem chooseRow_mem (r0 : Row) (rest : List Row) (fu : String) :
    chooseRow r0 rest fu ∈ r0 :: rest := by
  unfold chooseRow
  cases hp : findPatternHit (r0 :: rest) (formFilenamePatterns fu) with
  | some hit => simpa using findPatternHit_mem _ _ _ hp
  | none =>
    cases hs : (r0 :: rest).filter (fun r => r.type == fu) with
    | cons s0 stl =>
      show pickBySort s0 ((s0 :: stl).filter (fun r => isHtmlName r.document)) ∈ r0 :: rest
      cases hh : (s0 :: stl).filter (fun r => isHtmlName r.document) with
      | cons h0 htl =>
        rw [pickBySort_cons]
        have m1 : firstMax h0 htl ∈ h0 :: htl := firstMax_mem htl h0
        rw [← hh] at m1
        have m2 := List.mem_of_mem_filter m1
        rw [← hs] at m2
        exact List.mem_of_mem_filter m2
      | nil =>
        rw [pickBySort_nil]
        have m2 : s0 ∈ s0 :: stl := List.mem_cons_self s0 stl
        rw [← hs] at m2
        exact List.mem_of_mem_filter m2
    | nil =>
      show pickBySort r0 ((r0 :: rest).filter (fun r => isHtmlName r.document)) ∈ r0 :: rest
      cases hh : (r0 :: rest).filter (fun r => isHtmlName r.document) with
      | cons h0 htl =>
        rw [pickBySort_cons]
        have m1 : firstMax h0 htl ∈ h0 :: htl := firstMax_mem htl h0
        rw [← hh] at m1
        exact List.mem_of_mem_filter m1
      | nil => exact List.mem_cons_self _ _

/-- Once a non-empty row list was parsed from a fetched table, the index
strategy returns (it cannot throw past that point), and the URL is the
folder URL plus the chosen row's filename. -/
theorem getPrimaryFromSecIndex_ok (env : Env) (c a fu : String)
    (cellRows : List (List String)) (q0 : Row) (qrest : List Row)
    (hfetch : (fetchIndex env).1 = some (Page.table cellRows))
    (hrows : cellRows.filterMap parseRow = q0 :: qrest) :
    (getPrimaryFromSecIndex env c a fu).1 =
      Except.ok (secArchiveBase c a ++ (chooseRow q0 qrest fu).document) := by
  show indexResult (secArchiveBase c a) (fetchIndex env).1 fu = _
  rw [hfetch]
  simp only [indexResult]
  rw [hrows]

section MapCommute

variable (m : Row → Row)

theorem find?_doc_map (hdoc : ∀ r, (m r).document = r.document)
    (p : String → Bool) (l : List Row) :
    (l.map m).find? (fun r => p r.document) =
      ((l.find? (fun r => p r.document)).map m) := by
  rw [List.find?_map]
  have hfun : ((fun r : Row => p r.document) ∘ m) = fun r : Row => p r.document := by
    funext r
    simp [Function.comp, hdoc]
  rw [hfun]

theorem findPatternHit_map (hdoc : ∀ r, (m r).document = r.document)
    (l : List Row) (pats : List (String → Bool)) :
    findPatternHit (l.map m) pats = (findPatternHit l pats).map m := by
  induction pats with
  | nil => rfl
  | cons p ps ih =>
    simp only [findPatternHit]
    rw [find?_doc_map m hdoc p l]
    cases hf : l.find? (fun r => p r.document) with
    | some r => rfl
    | none => simpa using ih

theorem filter_type_map (hty : ∀ r, (m r).type = r.type)
    (fu : String) (l : List Row) :
    (l.map m).filter (fun r => r.type == fu) =
      (l.filter (fun r => r.type == fu)).map m := by
  rw [List.filter_map]
  have hfun : ((fun r : Row => r.type == fu) ∘ m) = fun r : Row => r.type == fu := by
    funext r
    simp [Function.comp, hty]
  rw [hfun]

theorem filter_html_map (hdoc : ∀ r, (m r).document = r.document) (l : List Row) :
    (l.map m).filter (fun r => isHtmlName r.document) =
      (l.filter (fun r => isHtmlName r.document)).map m := by
  rw [List.filter_map]
  have hfun : ((fun r : Row => isHtmlName r.document) ∘ m)
      = fun r : Row => isHtmlName r.document := by
    funext r
    simp [Function.comp, hdoc]
  rw [hfun]

theorem insertDesc_map (hsz : ∀ r, (m r).size = r.size) (r : Row) (l : List Row) :
    insertDesc (m r) (l.map m) = (insertDesc r l).map m := by
  induction l with
  | nil => rfl
  | cons x xs ih =>
    simp only [List.map_cons, insertDesc, hsz]
    by_cases h : x.size ≤ r.size
    · rw [if_pos h, if_pos h]
      rfl
    · rw [if_neg h, if_neg h, List.map_cons, ih]

theorem sortBySizeDesc_map (hsz : ∀ r, (m r).size = r.size) (l : List Row) :
    sortBySizeDesc (l.map m) = (sortBySizeDesc l).map m := by
  induction l with
  | nil => rfl
  | cons x xs ih =>
    simp only [List.map_cons, sortBySizeDesc]
    rw [ih, insertDesc_map m hsz]

theorem pickBySort_map (hsz : ∀ r, (m r).size = r.size) (d : Row) (l : List Row) :
    pickBySort (m d) (l.map m) = m (pickBySort d l) := by
  unfold pickBySort
  rw [sortBySizeDesc_map m hsz]
  cases hq : sortBySizeDesc l with
  | nil => rfl
  | cons b bs => rfl

end MapCommute

/-- Selection of the worker fallback, written as the staged description:
scan patterns in order, taking a pattern's first matching descriptor only
when it carries a truthy url; else the HTML stage with the index-name
exclusion and first-HTML fallback; else the first truthy-url PDF
descriptor; else the first descriptor's url. -/
def workerSelectSpec (f0 : FileDesc) (rest : List FileDesc) (formUpper : String) :
    Option String :=
  match (formFilenamePatterns formUpper).findSome? (fun p =>
      match (f0 :: rest).find? (fun f => p (f.filename.getD "")) with
      | some hit => if jsTruthy hit.url then hit.url else none
      | none => none) with
  | some u => some u
  | none =>
    match (f0 :: rest).filter isHtmlDesc with
    | h0 :: htl =>
      (((h0 :: htl).find? (fun f => !(indexLikeName (f.filename.getD "")))).getD h0).url
    | [] =>
      match (f0 :: rest).find? (fun f => f.type == some "pdf") with
      | some pdf => if jsTruthy pdf.url then pdf.url else f0.url
      | none => f0.url

theorem workerPatLoop_eq_findSome (files : List FileDesc)
    (pats : List (String → Bool)) :
    workerPatLoop files pats = pats.findSome? (fun p =>
      match files.find? (fun f => p (f.filename.getD "")) with
      | some hit => if jsTruthy hit.url then hit.url else none
      | none => none) := by
  induction pats with
  | nil => rfl
  | cons p ps ih =>
    simp only [workerPatLoop, List.findSome?]
    cases hf : files.find? (fun f => p (f.filename.getD "")) with
    | some hit =>
      by_cases hu : jsTruthy hit.url
      · cases hurl : hit.url with
        | none => rw [hurl] at hu; simp [jsTruthy] at hu
        | some u =>
          rw [hurl] at hu
          simp [hu, hurl]
      · simp [hu]
        exact ih
    | none =>
      simp
      exact ih

theorem chooseRow_type_html (r0 : Row) (rest : List Row) (fu : String) (s0 h0 : Row)
    (stl htl : List Row)
    (hpat : findPatternHit (r0 :: rest) (formFilenamePatterns fu) = none)
    (hty : (r0 :: rest).filter (fun r => r.type == fu) = s0 :: stl)
    (hh : (s0 :: stl).filter (fun r => isHtmlName r.document) = h0 :: htl) :
    chooseRow r0 rest fu = firstMax h0 htl := by
  unfold chooseRow
  rw [hpat, hty]
  show pickBySort s0 ((s0 :: stl).filter (fun r => isHtmlName r.document)) = firstMax h0 htl
  rw [hh, pickBySort_cons]

theorem chooseRow_type_nohtml (r0 : Row) (rest : List Row) (fu : String) (s0 : Row)
    (stl : List Row)
    (hpat : findPatternHit (r0 :: rest) (formFilenamePatterns fu) = none)
    (hty : (r0 :: rest).filter (fun r => r.type == fu) = s0 :: stl)
    (hh : (s0 :: stl).filter (fun r => isHtmlName r.document) = []) :
    chooseRow r0 rest fu = s0 := by
  unfold chooseRow
  rw [hpat, hty]
  show pickBySort s0 ((s0 :: stl).filter (fun r => isHtmlName r.document)) = s0
  rw [hh, pickBySort_nil]

theorem chooseRow_global_html (r0 : Row) (rest : List Row) (fu : String) (h0 : Row)
    (htl : List Row)
    (hpat : findPatternHit (r0 :: rest) (formFilenamePatterns fu) = none)
    (hty : (r0 :: rest).filter (fun r => r.type == fu) = [])
    (hh : (r0 :: rest).filter (fun r => isHtmlName r.document) = h0 :: htl) :
    chooseRow r0 rest fu = firstMax h0 htl := by
  unfold chooseRow
  rw [hpat, hty]
  show pickBySort r0 ((r0 :: rest).filter (fun r => isHtmlName r.document)) = firstMax h0 htl
  rw [hh, pickBySort_cons]

theorem chooseRow_global_first (r0 : Row) (rest : List Row) (fu : String)
    (hpat : findPatternHit (r0 :: rest) (formFilenamePatterns fu) = none)
    (hty : (r0 :: rest).filter (fun r => r.type == fu) = [])
    (hh : (r0 :: rest).filter (fun r => isHtmlName r.document) = []) :
    chooseRow r0 rest fu = r0 := by
  unfold chooseRow
  rw [hpat, hty]
  show pickBySort r0 ((r0 :: rest).filter (fun r => isHtmlName r.document)) = r0
  rw [hh, pickBySort_nil]

theorem getPrimaryFromSecIndex_calls (env : Env) (c a fu : String) :
    (getPrimaryFromSecIndex env c a fu).2 = (fetchIndex env).2 := rfl

theorem getPrimaryFromWorker_calls (env : Env) (fu : String) :
    (getPrimaryFromWorker env fu).2 = [NetCall.worker] := by
  unfold getPrimaryFromWorker
  cases env.worker with
  | none => rfl
  | some fs =>
    cases fs with
    | nil => rfl
    | cons f0 rest => rfl

theorem fetchIndex_calls (env : Env) :
    (fetchIndex env).2 = [NetCall.indexHeaders] ∨
      (fetchIndex env).2 = [NetCall.indexHeaders, NetCall.indexPlain] := by
  unfold fetchIndex
  cases env.indexHeaders with
  | some p => left; rfl
  | none =>
    cases env.indexPlain with
    | some p => right; rfl
    | none => right; rfl

theorem listIsPrefixOf_append (l t : List Char) : listIsPrefixOf l (l ++ t) = true := by
  induction l with
  | nil => rfl
  | cons c cs ih => simp [listIsPrefixOf, ih]

theorem strStartsWith_append (p t : String) : strStartsWith p (p ++ t) = true := by
  unfold strStartsWith
  have hdata : (p ++ t).data = p.data ++ t.data := rfl
  rw [hdata]
  exact listIsPrefixOf_append _ _

/-- Every successful result of the post-fetch index logic is the folder URL
plus some filename. -/
theorem indexResult_ok_shape (base : String) (pg : Option Page) (fu v : String)
    (h : indexResult base pg fu = Except.ok v) : ∃ d, v = base ++ d := by
  unfold indexResult at h
  cases pg with
  | none => exact absurd h (by simp)
  | some p =>
    cases p with
    | noTable => exact absurd h (by simp)
    | table cellRows =>
      have h2 : (match cellRows.filterMap parseRow with
          | [] => (Except.error "No document rows found in SEC index" : Except String String)
          | q0 :: qrest => Except.ok (base ++ (chooseRow q0 qrest fu).document))
          = Except.ok v := h
      cases hr : cellRows.filterMap parseRow with
      | nil => rw [hr] at h2; exact absurd h2 (by simp)
      | cons q0 qrest =>
        rw [hr] at h2
        injection h2 with h3
        exact ⟨(chooseRow q0 qrest fu).document, h3.symm⟩

theorem filter_numDot_dropWhile_ws (l : List Char) :
    (l.dropWhile jsWs).filter numDot = l.filter numDot := by
  induction l with
  | nil => rfl
  | cons c t ih =>
    by_cases h : jsWs c
    · have hnd : numDot c = false := by
        simp [jsWs] at h
        rcases h with ((rfl | rfl) | rfl) | rfl <;> rfl
      rw [List.dropWhile_cons_of_pos h, ih, List.filter_cons]
      simp [hnd]
    · rw [List.dropWhile_cons_of_neg h]

/-- Trimming first does not change the result of the digit-and-period
stripping (JS whitespace never survives the stripping regex). -/
theorem filter_numDot_strTrim (s : String) :
    (strTrim s).data.filter numDot = s.data.filter numDot := by
  show ((((s.data.dropWhile jsWs).reverse.dropWhile jsWs).reverse).filter numDot) = _
  rw [List.filter_reverse, filter_numDot_dropWhile_ws, List.filter_reverse,
    filter_numDot_dropWhile_ws, List.reverse_reverse]

theorem jsParseFloat_nil : jsParseFloat [] = none := rfl

/-- The size of every parsed row is exactly: strip everything but digits
and periods from the fourth cell, parse as a float, default 0. -/
theorem parseRow_size (cells : List String) (r : Row) (h : parseRow cells = some r) :
    r.size = (jsParseFloat ((cells.getD 3 "").data.filter numDot)).getD 0 := by
  unfold parseRow at h
  by_cases hlen : cells.length < 2
  · rw [if_pos hlen] at h; exact absurd h (by simp)
  · rw [if_neg hlen] at h
    by_cases hdoc : strTrim (cells.getD 0 "") == ""
    · rw [if_pos hdoc] at h; exact absurd h (by simp)
    · rw [if_neg hdoc] at h
      injection h with h2
      rw [← h2]
      show (if strTrim (cells.getD 3 "") == "" then (0 : Rat)
          else
            match jsParseFloat ((strTrim (cells.getD 3 "")).data.filter numDot) with
            | some q => q
            | none => 0)
          = (jsParseFloat ((cells.getD 3 "").data.filter numDot)).getD 0
      rw [← filter_numDot_strTrim (cells.getD 3 "")]
      by_cases he : strTrim (cells.getD 3 "") == ""
      · rw [if_pos he]
        have hdata : (strTrim (cells.getD 3 "")).data = [] := by
          rw [beq_iff_eq.mp he]
        rw [hdata]
        rfl
      · rw [if_neg he]
        cases hj : jsParseFloat ((strTrim (cells.getD 3 "")).data.filter numDot) with
        | some q => rfl
        | none => rfl

theorem head_dropWhile_false {α : Type} (p : α → Bool) (l : List α) :
    ∀ x, (l.dropWhile p).head? = some x → p x = false := by
  induction l with
  | nil => intro x hx; simp at hx
  | cons d t ih =>
    intro x hx
    by_cases hd : p d
    · rw [List.dropWhile_cons_of_pos hd] at hx
      exact ih x hx
    · rw [List.dropWhile_cons_of_neg hd] at hx
      simp at hx
      rw [← hx]
      exact Bool.eq_false_iff.mpr hd

/-- Concrete index rows and environments used by the closed instances. -/
def c1rowDesc : Row :=
  { document := "a.htm", type := "8-K", description := "8-K current report", size := 10 }

def c1rowOther : Row :=
  { document := "b.htm", type := "8-K", description := "exhibit", size := 100 }

def c4rowPat : Row :=
  { document := "a10k.htm", type := "10-K", description := "", size := 5 }

def c4rowBig : Row :=
  { document := "b.htm", type := "10-K", description := "", size := 50000 }

def c4row500 : Row :=
  { document := "a.htm", type := "20-F", description := "", size := 500 }

def c4row50000 : Row :=
  { document := "b.htm", type := "20-F", description := "", size := 50000 }

def c5rowXml : Row :=
  { document := "a.xml", type := "EX-99", description := "", size := 1 }

def c5rowHtm : Row :=
  { document := "b.htm", type := "EX-10", description := "", size := 2 }

def c9fileNoUrl : FileDesc :=
  { filename := some "xsl144X01/primary_doc.xml", url := none, type := none }

def c9fileWithUrl : FileDesc :=
  { filename := some "b/xsl144X01/primary_doc.xml",
    url := some "https://www.sec.gov/Archives/extra/primary_doc.xml", type := none }

/-- Environment in which every upstream fetch fails. -/
def envNoUpstream : Env := { indexHeaders := none, indexPlain := none, worker := none }

/-- Environment in which the index fetches fail and the worker returns one
PDF descriptor whose url lies outside the filing folder. -/
def envOutside : Env :=
  { indexHeaders := none, indexPlain := none,
    worker := some [ { filename := some "doc.pdf",
                       url := some "https://elsewhere.example/doc.pdf",
                       type := some "pdf" } ] }

/-- Environment whose index page holds one row with an unparsable size. -/
def envBadSize : Env :=
  { indexHeaders := some (Page.table [["doc.htm", "10-K", "Annual report", "N/A"]]),
    indexPlain := none, worker := none }

def c6row : Row :=
  { document := "doc.htm", type := "10-K", description := "Annual report", size := 0 }

/-- Blanks a row's description, leaving the other columns unchanged. -/
def descMask (r : Row) : Row := { r with description := "" }

/-- C3: the computed filing-folder URL strips all leading zeros from the
filer ID (exactly the leading run of zeros is removed) and removes all
dashes from the accession number; in particular for filer ID "0001683168"
and accession number "0001683168-25-008885" the folder URL equals the
canonical one. -/
theorem c3_folder_url :
    secArchiveBase "0001683168" "0001683168-25-008885" =
      "https://www.sec.gov/Archives/edgar/data/1683168/000168316825008885/"
    ∧ (∀ c : String, (cleanCik c).data.head? ≠ some '0')
    ∧ (∀ c : String,
        c.data.takeWhile (fun ch => ch == '0') ++ (cleanCik c).data = c.data)
    ∧ (∀ a : String, '-' ∉ (cleanAccession a).data)
    ∧ (∀ a : String, (cleanAccession a).data = a.data.filter (fun ch => !(ch == '-'))) := by
  refine ⟨by decide, ?_, ?_, ?_, ?_⟩
  · intro c hc
    have hfalse := head_dropWhile_false (fun ch : Char => ch == '0') c.data '0' hc
    simp at hfalse
  · intro c
    exact List.takeWhile_append_dropWhile (p := fun ch : Char => ch == '0') (l := c.data)
  · intro a ha
    have hmem := List.of_mem_filter ha
    simp at hmem
  · intro a
    rfl

theorem c3_witness :
    '-' ∉ (cleanAccession "0001683168-25-008885").data :=
  c3_folder_url.2.2.2.1 "0001683168-25-008885"

/-- C2: for any form type whose trimmed upper-casing is a key of the
ownership-form map or the direct-XSL map, the resolver returns the folder
URL concatenated with the mapped relative path, with an empty network
trace (no fetch, no index strategy, no listing strategy). -/
theorem c2_deterministic_map (env : Env) (cik accession formRaw rel : String)
    (h : ownershipFormMap (strUpper (strTrim formRaw)) = some rel ∨
        (ownershipFormMap (strUpper (strTrim formRaw)) = none ∧
         directXslIfKnown (strUpper (strTrim formRaw)) = some rel)) :
    resolvePrimaryUrl env cik accession formRaw =
      (Except.ok (some (secArchiveBase cik accession ++ rel)), []) := by
  unfold resolvePrimaryUrl
  rcases h with h1 | ⟨h1, h2⟩
  · rw [h1]
  · rw [h1, h2]

theorem c2_witness :
    resolvePrimaryUrl envNoUpstream "0001683168" "0001683168-25-008885" " 4 " =
      (Except.ok (some (secArchiveBase "0001683168" "0001683168-25-008885"
        ++ "xslF345X05/ownership.xml")), []) :=
  c2_deterministic_map envNoUpstream "0001683168" "0001683168-25-008885" " 4 "
    "xslF345X05/ownership.xml" (Or.inl (by decide))

/-- C8: resolution is deterministic — two resolutions of the same triple
against identical upstream responses give identical results. -/
theorem c8_deterministic (env1 env2 : Env) (cik accession formRaw : String)
    (h : env1 = env2) :
    resolvePrimaryUrl env1 cik accession formRaw =
      resolvePrimaryUrl env2 cik accession formRaw := by
  rw [h]

theorem c8_witness :
    resolvePrimaryUrl envNoUpstream "1" "2" "8-K" =
      resolvePrimaryUrl envNoUpstream "1" "2" "8-K" :=
  c8_deterministic envNoUpstream envNoUpstream "1" "2" "8-K" rfl

/-- C7: when the form is not deterministic and the index strategy throws,
the resolver runs the worker strategy exactly once and returns its result;
a worker error terminates resolution with that single error; neither
strategy is retried (each index URL is attempted at most once and the
worker exactly once). -/
theorem c7_single_fallback (env : Env) (cik accession formRaw e : String)
    (h1 : ownershipFormMap (strUpper (strTrim formRaw)) = none)
    (h2 : directXslIfKnown (strUpper (strTrim formRaw)) = none)
    (h3 : (getPrimaryFromSecIndex env cik accession (strUpper (strTrim formRaw))).1
        = Except.error e) :
    resolvePrimaryUrl env cik accession formRaw =
      ((getPrimaryFromWorker env (strUpper (strTrim formRaw))).1,
        (getPrimaryFromSecIndex env cik accession (strUpper (strTrim formRaw))).2
          ++ [NetCall.worker])
    ∧ (resolvePrimaryUrl env cik accession formRaw).2.count NetCall.worker = 1
    ∧ (resolvePrimaryUrl env cik accession formRaw).2.count NetCall.indexHeaders = 1
    ∧ (resolvePrimaryUrl env cik accession formRaw).2.count NetCall.indexPlain ≤ 1
    ∧ (∀ w, (getPrimaryFromWorker env (strUpper (strTrim formRaw))).1 = Except.error w →
        (resolvePrimaryUrl env cik accession formRaw).1 = Except.error w) := by
  have hpair : getPrimaryFromSecIndex env cik accession (strUpper (strTrim formRaw)) =
      (Except.error e,
        (getPrimaryFromSecIndex env cik accession (strUpper (strTrim formRaw))).2) :=
    Prod.ext h3 rfl
  have hmain : resolvePrimaryUrl env cik accession formRaw =
      ((getPrimaryFromWorker env (strUpper (strTrim formRaw))).1,
        (getPrimaryFromSecIndex env cik accession (strUpper (strTrim formRaw))).2
          ++ [NetCall.worker]) := by
    unfold resolvePrimaryUrl
    rw [h1, h2, hpair]
    rcases hw : getPrimaryFromWorker env (strUpper (strTrim formRaw)) with ⟨r, c2⟩
    have hc2 : c2 = [NetCall.worker] := by
      have hcalls := getPrimaryFromWorker_calls env (strUpper (strTrim formRaw))
      rw [hw] at hcalls
      exact hcalls
    rw [hc2]
  refine ⟨hmain, ?_, ?_, ?_, ?_⟩
  · rw [hmain]
    show ((getPrimaryFromSecIndex env cik accession (strUpper (strTrim formRaw))).2
        ++ [NetCall.worker]).count NetCall.worker = 1
    rw [getPrimaryFromSecIndex_calls]
    rcases fetchIndex_calls env with hc | hc <;> rw [hc] <;> decide
  · rw [hmain]
    show ((getPrimaryFromSecIndex env cik accession (strUpper (strTrim formRaw))).2
        ++ [NetCall.worker]).count NetCall.indexHeaders = 1
    rw [getPrimaryFromSecIndex_calls]
    rcases fetchIndex_calls env with hc | hc <;> rw [hc] <;> decide
  · rw [hmain]
    show ((getPrimaryFromSecIndex env cik accession (strUpper (strTrim formRaw))).2
        ++ [NetCall.worker]).count NetCall.indexPlain ≤ 1
    rw [getPrimaryFromSecIndex_calls]
    rcases fetchIndex_calls env with hc | hc <;> rw [hc] <;> decide
  · intro w hw2
    rw [hmain]
    exact hw2

theorem c7_witness :
    (resolvePrimaryUrl envNoUpstream "1" "2" "NO-SUCH-FORM").2.count NetCall.worker = 1 :=
  (c7_single_fallback envNoUpstream "1" "2" "NO-SUCH-FORM"
    "Could not fetch SEC index page" rfl rfl rfl).2.1

/-- C10: every URL produced by the deterministic-map strategy or the index
strategy begins with the canonical filing-folder URL (a worker-free trace
implies the folder-URL invariant), while the worker fallback can return a
URL outside the folder, as the concrete environment shows. -/
theorem c10_folder_invariant :
    (∀ (env : Env) (cik accession formRaw u : String) (calls : List NetCall),
        resolvePrimaryUrl env cik accession formRaw = (Except.ok (some u), calls) →
        NetCall.worker ∉ calls →
        strStartsWith (secArchiveBase cik accession) u = true)
    ∧ resolvePrimaryUrl envOutside "12345" "0001-23-000045" "NO-SUCH-FORM"
        = (Except.ok (some "https://elsewhere.example/doc.pdf"),
            [NetCall.indexHeaders, NetCall.indexPlain, NetCall.worker])
    ∧ strStartsWith (secArchiveBase "12345" "0001-23-000045")
        "https://elsewhere.example/doc.pdf" = false := by
  refine ⟨?_, rfl, by decide⟩
  intro env cik accession formRaw u calls hres hnw
  unfold resolvePrimaryUrl at hres
  cases ho : ownershipFormMap (strUpper (strTrim formRaw)) with
  | some rel =>
    rw [ho] at hres
    simp only [Prod.mk.injEq, Except.ok.injEq, Option.some.injEq] at hres
    obtain ⟨h1', h2'⟩ := hres
    rw [← h1']
    exact strStartsWith_append _ _
  | none =>
    rw [ho] at hres
    cases hd : directXslIfKnown (strUpper (strTrim formRaw)) with
    | some rel =>
      rw [hd] at hres
      simp only [Prod.mk.injEq, Except.ok.injEq, Option.some.injEq] at hres
      obtain ⟨h1', h2'⟩ := hres
      rw [← h1']
      exact strStartsWith_append _ _
    | none =>
      rw [hd] at hres
      rcases hgi : getPrimaryFromSecIndex env cik accession (strUpper (strTrim formRaw))
        with ⟨res, icalls⟩
      rw [hgi] at hres
      cases res with
      | ok v =>
        simp only [Prod.mk.injEq, Except.ok.injEq, Option.some.injEq] at hres
        obtain ⟨h1', h2'⟩ := hres
        have hv : indexResult (secArchiveBase cik accession) (fetchIndex env).1
            (strUpper (strTrim formRaw)) = Except.ok v := by
          have hfst : (getPrimaryFromSecIndex env cik accession
              (strUpper (strTrim formRaw))).1 = Except.ok v := by
            rw [hgi]
          exact hfst
        obtain ⟨d, hd2⟩ := indexResult_ok_shape _ _ _ _ hv
        rw [← h1', hd2]
        exact strStartsWith_append _ _
      | error e2 =>
        rcases hw : getPrimaryFromWorker env (strUpper (strTrim formRaw)) with ⟨r, c2⟩
        rw [hw] at hres
        have hc2 : c2 = [NetCall.worker] := by
          have hcalls := getPrimaryFromWorker_calls env (strUpper (strTrim formRaw))
          rw [hw] at hcalls
          exact hcalls
        simp only [Prod.mk.injEq] at hres
        obtain ⟨h1', h2'⟩ := hres
        exact absurd hnw (by rw [← h2', hc2]; simp)

theorem c10_witness :
    strStartsWith (secArchiveBase "0001683168" "0001683168-25-008885")
      (secArchiveBase "0001683168" "0001683168-25-008885"
        ++ "xslF345X05/ownership.xml") = true :=
  c10_folder_invariant.1 envNoUpstream "0001683168" "0001683168-25-008885" " 4 "
    (secArchiveBase "0001683168" "0001683168-25-008885" ++ "xslF345X05/ownership.xml")
    [] rfl (by simp)

/-- C5: with no pattern hit and no type-matching row, the selection takes
the largest HTML row over the whole row set when one exists, else the
first row; and on any non-empty parsed row list the selection returns some
row's URL and never fails. -/
theorem c5_global_fallback (r0 : Row) (rest : List Row) (fu : String)
    (hpat : findPatternHit (r0 :: rest) (formFilenamePatterns fu) = none)
    (hty : (r0 :: rest).filter (fun r => r.type == fu) = []) :
    ((∀ (h0 : Row) (htl : List Row),
        (r0 :: rest).filter (fun r => isHtmlName r.document) = h0 :: htl →
        chooseRow r0 rest fu = firstMax h0 htl
          ∧ IsFirstMaxOf (h0 :: htl) (firstMax h0 htl))
      ∧ ((r0 :: rest).filter (fun r => isHtmlName r.document) = [] →
          chooseRow r0 rest fu = r0))
    ∧ (∀ (q0 : Row) (qrest : List Row) (g : String), chooseRow q0 qrest g ∈ q0 :: qrest)
    ∧ (∀ (env : Env) (c a g : String) (cellRows : List (List String)) (q0 : Row)
        (qrest : List Row),
        (fetchIndex env).1 = some (Page.table cellRows) →
        cellRows.filterMap parseRow = q0 :: qrest →
        (getPrimaryFromSecIndex env c a g).1 =
          Except.ok (secArchiveBase c a ++ (chooseRow q0 qrest g).document)) := by
  refine ⟨⟨?_, ?_⟩, chooseRow_mem, getPrimaryFromSecIndex_ok⟩
  · intro h0 htl hh
    exact ⟨chooseRow_global_html r0 rest fu h0 htl hpat hty hh,
      isFirstMaxOf_firstMax h0 htl⟩
  · intro hh
    exact chooseRow_global_first r0 rest fu hpat hty hh

theorem c5_witness :
    chooseRow c5rowXml [c5rowHtm] "ZZZ" ∈ c5rowXml :: [c5rowHtm] :=
  (c5_global_fallback c5rowXml [c5rowHtm] "ZZZ" (by decide) (by decide)).2.1
    c5rowXml [c5rowHtm] "ZZZ"

/-- C6: every parsed row's size equals the float value of the fourth
cell's text stripped to digits and periods, with default 0 when the strip
parses to NaN or the cell is absent; a table whose size texts are all
unparsable parses with every size 0 and selection still succeeds. -/
theorem c6_size_default :
    (∀ (cells : List String) (r : Row), parseRow cells = some r →
        r.size = (jsParseFloat ((cells.getD 3 "").data.filter numDot)).getD 0)
    ∧ (∀ (cells : List String) (r : Row), parseRow cells = some r →
        jsParseFloat ((cells.getD 3 "").data.filter numDot) = none → r.size = 0)
    ∧ (∀ (env : Env) (c a g : String) (cellRows : List (List String)) (q0 : Row)
        (qrest : List Row),
        (∀ cells ∈ cellRows, jsParseFloat ((cells.getD 3 "").data.filter numDot) = none) →
        (fetchIndex env).1 = some (Page.table cellRows) →
        cellRows.filterMap parseRow = q0 :: qrest →
        (∀ r ∈ q0 :: qrest, r.size = 0)
          ∧ (getPrimaryFromSecIndex env c a g).1 =
              Except.ok (secArchiveBase c a ++ (chooseRow q0 qrest g).document)) := by
  refine ⟨parseRow_size, ?_, ?_⟩
  · intro cells r h hnone
    rw [parseRow_size cells r h, hnone]
    rfl
  · intro env c a g cellRows q0 qrest hall hfetch hrows
    refine ⟨?_, getPrimaryFromSecIndex_ok env c a g cellRows q0 qrest hfetch hrows⟩
    intro r hr
    rw [← hrows] at hr
    obtain ⟨cells, hcell, hp⟩ := List.mem_filterMap.mp hr
    rw [parseRow_size cells r hp, hall cells hcell]
    rfl

theorem c6_witness :
    (getPrimaryFromSecIndex envBadSize "0001683168" "0001683168-25-008885" "10-K").1 =
      Except.ok (secArchiveBase "0001683168" "0001683168-25-008885"
        ++ (chooseRow c6row [] "10-K").document) :=
  (c6_size_default.2.2 envBadSize "0001683168" "0001683168-25-008885" "10-K"
    [["doc.htm", "10-K", "Annual report", "N/A"]] c6row [] (by decide) rfl (by decide)).2

/-- C4 fails as stated: with form "10-K" the filename-pattern rule runs
before the exact-type rule, so a small pattern-matching row beats the
largest same-type HTML row. -/
theorem c4_counterexample :
    chooseRow c4rowPat [c4rowBig] "10-K" = c4rowPat
    ∧ c4rowPat ≠ c4rowBig
    ∧ c4rowPat.type = "10-K"
    ∧ c4rowBig.type = "10-K"
    ∧ isHtmlName c4rowBig.document = true
    ∧ c4rowPat.size < c4rowBig.size := by decide

/-- C4 amended: provided no filename pattern for the form type matched any
row, when type-matching rows exist the selection takes the type-matching
HTML row of largest size (ties to first occurrence), or the first
type-matching row when none is HTML; in particular the 50,000-size row
beats the 500-size row. -/
theorem c4_exact_type_largest (r0 : Row) (rest : List Row) (fu : String)
    (s0 : Row) (stl : List Row)
    (hpat : findPatternHit (r0 :: rest) (formFilenamePatterns fu) = none)
    (hty : (r0 :: rest).filter (fun r => r.type == fu) = s0 :: stl) :
    ((∀ (h0 : Row) (htl : List Row),
        (s0 :: stl).filter (fun r => isHtmlName r.document) = h0 :: htl →
        chooseRow r0 rest fu = firstMax h0 htl
          ∧ IsFirstMaxOf (h0 :: htl) (firstMax h0 htl))
      ∧ ((s0 :: stl).filter (fun r => isHtmlName r.document) = [] →
          chooseRow r0 rest fu = s0))
    ∧ chooseRow c4row500 [c4row50000] "20-F" = c4row50000 := by
  refine ⟨⟨?_, ?_⟩, by decide⟩
  · intro h0 htl hh
    exact ⟨chooseRow_type_html r0 rest fu s0 h0 stl htl hpat hty hh,
      isFirstMaxOf_firstMax h0 htl⟩
  · intro hh
    exact chooseRow_type_nohtml r0 rest fu s0 stl hpat hty hh

theorem c4_witness :
    chooseRow c4row500 [c4row50000] "20-F" = firstMax c4row500 [c4row50000] :=
  ((c4_exact_type_largest c4row500 [c4row50000] "20-F" c4row500 [c4row50000]
    (by decide) (by decide)).1.1 c4row500 [c4row50000] (by decide)).1

/-- C1 fails as stated: both rows are type-matching HTML rows and only the
first one's description contains the form type string, yet the selection
returns the other, larger row — the description column is not consulted. -/
theorem c1_counterexample :
    chooseRow c1rowDesc [c1rowOther] "8-K" = c1rowOther
    ∧ c1rowOther ≠ c1rowDesc
    ∧ c1rowDesc.type = "8-K"
    ∧ c1rowOther.type = "8-K"
    ∧ reC "8-K" c1rowDesc.description = true
    ∧ reC "8-K" c1rowOther.description = false
    ∧ isHtmlName c1rowDesc.document = true
    ∧ isHtmlName c1rowOther.document = true := by decide

/-- C1 amended: the index-page selection never consults the description
column — rewriting every row's description (leaving filename, type and
size unchanged) commutes with the selection. -/
theorem c1_no_description_preference (m : Row → Row)
    (hdoc : ∀ r, (m r).document = r.document)
    (hty : ∀ r, (m r).type = r.type)
    (hsz : ∀ r, (m r).size = r.size)
    (r0 : Row) (rest : List Row) (fu : String) :
    chooseRow (m r0) (rest.map m) fu = m (chooseRow r0 rest fu) := by
  unfold chooseRow
  rw [show (m r0 :: rest.map m) = (r0 :: rest).map m from rfl,
    findPatternHit_map m hdoc, filter_type_map m hty]
  cases hp : findPatternHit (r0 :: rest) (formFilenamePatterns fu) with
  | some hit => rfl
  | none =>
    cases hs : (r0 :: rest).filter (fun r => r.type == fu) with
    | cons s0 stl =>
      show pickBySort (m s0) ((m s0 :: stl.map m).filter (fun r => isHtmlName r.document))
          = m (pickBySort s0 ((s0 :: stl).filter (fun r => isHtmlName r.document)))
      rw [show (m s0 :: stl.map m) = (s0 :: stl).map m from rfl,
        filter_html_map m hdoc, pickBySort_map m hsz]
    | nil =>
      show pickBySort (m r0) (((r0 :: rest).map m).filter (fun r => isHtmlName r.document))
          = m (pickBySort r0 ((r0 :: rest).filter (fun r => isHtmlName r.document)))
      rw [filter_html_map m hdoc, pickBySort_map m hsz]

theorem c1_witness :
    chooseRow (descMask c1rowDesc) ([c1rowOther].map descMask) "8-K" =
      descMask (chooseRow c1rowDesc [c1rowOther] "8-K") :=
  c1_no_description_preference descMask (fun r => rfl) (fun r => rfl) (fun r => rfl)
    c1rowDesc [c1rowOther] "8-K"

/-- C9 fails as stated: the first descriptor matching the "144" pattern
carries no url, so that pattern is skipped entirely even though a later
descriptor matches the same pattern and has a url; with no HTML or PDF
stage applicable the function returns the first descriptor's absent url. -/
theorem c9_counterexample :
    workerSelect c9fileNoUrl [c9fileWithUrl] "144" = none
    ∧ jsTruthy c9fileWithUrl.url = true
    ∧ (∃ p ∈ formFilenamePatterns "144", p (c9fileWithUrl.filename.getD "") = true) := by
  refine ⟨by decide, by decide, ⟨reC "xsl144X01/primary_doc.xml", ?_, by decide⟩⟩
  show reC "xsl144X01/primary_doc.xml" ∈ [reC "xsl144X01/primary_doc.xml"]
  exact List.mem_singleton.mpr rfl

/-- C9 amended: the worker selection equals its staged description — the
patterns are scanned in order and a pattern's first matching descriptor is
taken only when its url is truthy (otherwise the pattern is skipped, even
if a later descriptor matching it has a url); then among HTML-typed or
HTML-named descriptors the first one without an index/header-like filename
is taken, falling back to the first HTML descriptor, its url returned as
is; then the first PDF-typed descriptor with a truthy url; else the first
descriptor's url as is. -/
theorem c9_worker_selection_order (f0 : FileDesc) (rest : List FileDesc) (fu : String) :
    workerSelect f0 rest fu = workerSelectSpec f0 rest fu := by
  unfold workerSelect workerSelectSpec
  rw [workerPatLoop_eq_findSome]

end SecBackend
